import Mathlib

/-!
Verification development for the wagtail audit-log fragment:

* `wagtail/admin/log_action_registry.py` — the `LogActionRegistry` class;
* `wagtail/admin/models.py` — the `LogEntry` model, its manager
  (`log_action`, `get_for_model`) and the derived accessors
  (`username`, `data`);
* `wagtail/core/management/commands/convert_revisions_to_log_entries.py` —
  the one-off backfill command.

The embedding is shallow: Python dicts holding parsed JSON snapshots become
association lists over a scalar JSON value type, database tables become
lists of records, and fallible Python code (KeyError, TypeError from a
repeated keyword argument, issubclass on a non-class) returns `Except`.
-/

/-- Scalar JSON values as they occur in a parsed revision snapshot.  The
snapshots this code manipulates are flat field dictionaries; the claims only
ever inspect scalar fields, so arrays and nested objects are not modelled. -/
inductive JVal where
  | null
  | jb (b : Bool)
  | jn (n : Int)
  | js (s : String)
deriving DecidableEq, Repr

/-- Python truthiness of a parsed JSON value, as used by the command's
`if content.get('live_revision'):` test. -/
def jtruthy : JVal → Bool
  | .null => false
  | .jb b => b
  | .jn n => n != 0
  | .js s => s != ""

/-- A parsed JSON snapshot: Python dict from field name to value. -/
abbrev Dict := List (String × JVal)

/-- Python `d[k]` / `d.get(k)` lookup (first binding wins; real dicts have
unique keys, so this is the dict's denotation). -/
def dictLookup (k : String) : Dict → Option JVal
  | [] => none
  | (k', v) :: rest => if k' = k then some v else dictLookup k rest

/-- Remove every binding of key `k` (real dicts bind each key once, so this
is Python's `del d[k]` on the dict's denotation). -/
def dictRemove (k : String) : Dict → Dict
  | [] => []
  | (k', v) :: rest => if k' = k then dictRemove k rest else (k', v) :: dictRemove k rest

/-- The keys of a snapshot. -/
def dictKeys (d : Dict) : List String := d.map (fun p => p.1)

/-- Python `d1 == d2` on dicts: same keys with equal values, order
irrelevant.  Used for `previous_revision_content != content`. -/
def dictEqB (d1 d2 : Dict) : Bool :=
  (dictKeys d1 ++ dictKeys d2).all (fun k => decide (dictLookup k d1 = dictLookup k d2))

/-- The Python exceptions this fragment can raise. -/
inductive PyErr where
  /-- `KeyError` from `del content[field]` when the field is absent. -/
  | keyError (k : String)
  /-- `TypeError: create() got multiple values for keyword argument
  'timestamp'`: `log_action` passes `timestamp=timezone.now()` explicitly to
  `create` while also forwarding `**kwargs`, so a caller-supplied
  `timestamp` keyword repeats the argument. -/
  | duplicateTimestampKwarg
  /-- `TypeError` from `issubclass(model, models.Model)` when `model` is not
  a class at all. -/
  | issubclassTypeError
  /-- `json.JSONDecodeError` from `json.loads` on malformed text. -/
  | jsonDecodeError
  /-- Missing related page row for a revision. -/
  | pageDoesNotExist
deriving DecidableEq, Repr

/-- The `data` payload values this fragment serializes: `log_action`'s
default `''` (a Python string) or a caller-supplied dict such as `{}`. -/
inductive PyData where
  | pstr (s : String)
  | pdict (d : Dict)
deriving DecidableEq, Repr

/-- JSON string escaping for `json.dumps` (quotes and backslashes; the
payloads in scope contain neither). -/
def jescape (s : String) : String :=
  String.join (s.toList.map (fun c =>
    if c = '"' then "\\\"" else if c = '\\' then "\\\\" else String.singleton c))

/-- `json.dumps` on a scalar JSON value. -/
def jvalDump : JVal → String
  | .null => "null"
  | .jb true => "true"
  | .jb false => "false"
  | .jn n => toString n
  | .js s => "\"" ++ jescape s ++ "\""

/-- `json.dumps` on a payload: a Python `''` dumps to the two-character JSON
text `""`, and `{}` dumps to the two-character text of an open and a close
brace. -/
def jdumps : PyData → String
  | .pstr s => "\"" ++ jescape s ++ "\""
  | .pdict entries =>
    "\x7b" ++ String.intercalate ", "
      (entries.map (fun p => "\"" ++ jescape p.1 ++ "\": " ++ jvalDump p.2)) ++ "\x7d"

/-- `json.loads`, restricted to the JSON texts this development ever stores
and reads back through the `data` accessor: the empty-object text and plain
JSON string literals without escapes.  Anything else is treated as a decode
failure; `LogEntry.data` only ever parses texts produced by `jdumps`. -/
def jloads (s : String) : Option PyData :=
  if s = "\x7b\x7d" then some (.pdict [])
  else match s.toList with
    | '"' :: rest =>
      match rest.getLast? with
      | some '"' =>
        let body := rest.dropLast
        if body.all (fun c => decide (c ≠ '"' ∧ c ≠ '\\')) then some (.pstr (String.mk body))
        else none
      | _ => none
    | _ => none

/-- The `LogEntry` model row (`wagtail/admin/models.py`).  Foreign keys are
modelled by their target ids; `user_id`/`revision_id` are nullable. -/
structure LogEntry where
  content_type : Option Nat
  object_id : String
  object_title : String
  action : String
  data_json : String
  timestamp : Nat
  user_id : Option Nat
  revision_id : Option Nat
  created : Bool
  published : Bool
  unpublished : Bool
  content_changed : Bool
  deleted : Bool
deriving DecidableEq, Repr

/-- `assocGet`: first-match association lookup (used for the user table and
the registry's dict-backed mappings). -/
def assocGet {κ α : Type} [DecidableEq κ] (k : κ) : List (κ × α) → Option α
  | [] => none
  | (k', v) :: rest => if k' = k then some v else assocGet k rest

/-- `assocSet`: Python dict assignment `d[k] = v` — overwrite in place if the
key exists, else append at the end (dicts preserve insertion order). -/
def assocSet {κ α : Type} [DecidableEq κ] (k : κ) (v : α) : List (κ × α) → List (κ × α)
  | [] => [(k, v)]
  | (k', v') :: rest => if k' = k then (k, v) :: rest else (k', v') :: assocSet k v rest

/-- `LogEntry.username` (`wagtail/admin/models.py` lines 155-164): `if
self.user_id:` is Python truthiness (None and 0 are falsy); fetching
`self.user` against the user table either finds the user's name or raises
`DoesNotExist`, which is caught and turned into the deleted-user marker.
The gettext localization wrapper is the identity here. -/
def LogEntry.username (users : List (Nat × String)) (e : LogEntry) : String :=
  match e.user_id with
  | some uid =>
    if uid ≠ 0 then
      match assocGet uid users with
      | some name => name
      | none => "user " ++ toString uid ++ " (deleted)"
    else "system"
  | none => "system"

/-- `LogEntry.data` (`wagtail/admin/models.py` lines 166-171): parse the
stored JSON text if non-empty, else return the empty dict. -/
def LogEntry.data (e : LogEntry) : Except PyErr PyData :=
  if e.data_json ≠ "" then
    match jloads e.data_json with
    | some v => .ok v
    | none => .error .jsonDecodeError
  else .ok (.pdict [])

/-- A model instance as seen by `log_action`: primary key, content type,
the optional `get_admin_display_title` attribute (`none` when the instance
does not expose the accessor) and its `str()` conversion. -/
structure Instance where
  pk : Nat
  content_type : Nat
  get_admin_display_title : Option String
  strRep : String
deriving DecidableEq, Repr

/-- The keyword arguments `log_action` accepts (`wagtail/admin/models.py`
docstring), in source order of use: `data` and `title` are popped, the rest
is forwarded verbatim to `create`. -/
structure LogActionKwargs where
  user : Option Nat
  title : Option String
  data : Option PyData
  timestamp : Option Nat
  revision : Option Nat
  created : Bool
  published : Bool
  unpublished : Bool
  content_changed : Bool
  deleted : Bool
deriving DecidableEq, Repr

/-- Title fallback of `log_action`: the instance's
`get_admin_display_title()` if the attribute exists, else `str(instance)`. -/
def fallbackTitle (inst : Instance) : String :=
  match inst.get_admin_display_title with
  | some t => t
  | none => inst.strRep

/-- The row `log_action` builds for `create` (`wagtail/admin/models.py`
lines 80-95): `data` defaults to the Python string `''`, a falsy `title`
kwarg (absent or empty) falls back to the display title, and the remaining
kwargs pass through verbatim. -/
def logEntryOf (inst : Instance) (action : String) (kw : LogActionKwargs)
    (now : Nat) : LogEntry :=
  let data := match kw.data with
    | some d => d
    | none => .pstr ""
  let title := match kw.title with
    | some t => if t = "" then fallbackTitle inst else t
    | none => fallbackTitle inst
  { content_type := some inst.content_type
    object_id := toString inst.pk
    object_title := title
    action := action
    data_json := jdumps data
    timestamp := now
    user_id := kw.user
    revision_id := kw.revision
    created := kw.created
    published := kw.published
    unpublished := kw.unpublished
    content_changed := kw.content_changed
    deleted := kw.deleted }

/-- `LogEntryManager.log_action`.  The `create` call spells
`timestamp=timezone.now()` explicitly *and* splats `**kwargs`; if the caller
put a `timestamp` key into the kwargs, Python raises `TypeError: got
multiple values for keyword argument 'timestamp'` when the call is built, so
no row is created. -/
def log_action (inst : Instance) (action : String) (kw : LogActionKwargs)
    (now : Nat) : Except PyErr LogEntry :=
  match kw.timestamp with
  | some _ => .error .duplicateTimestampKwarg
  | none => .ok (logEntryOf inst action kw now)

/-- The argument of `LogEntryManager.get_for_model`: either a class (which
may or may not be a `models.Model` subclass, carrying its content type id)
or a non-class Python object such as an int or a model instance. -/
inductive ModelArg where
  | cls (isModelSubclass : Bool) (ct : Nat)
  | nonClass
deriving DecidableEq, Repr

/-- `issubclass(model, models.Model)`: raises `TypeError` when the first
argument is not a class. -/
def issubclassModel : ModelArg → Except PyErr Bool
  | .cls b _ => .ok b
  | .nonClass => .error .issubclassTypeError

/-- `LogEntryManager.get_for_model` (`wagtail/admin/models.py` lines
97-104): return the empty queryset when `issubclass` says the argument is
not a model class, else filter by the class's content type.  The
`issubclass` test itself raises for non-class arguments. -/
def get_for_model (entries : List LogEntry) (m : ModelArg) :
    Except PyErr (List LogEntry) :=
  match issubclassModel m with
  | .error e => .error e
  | .ok false => .ok []
  | .ok true =>
    match m with
    | .cls _ ct => .ok (entries.filter (fun e => e.content_type == some ct))
    | .nonClass => .ok []

/-- A hook callback is, per the `register_log_actions` contract, a sequence
of `register_action(action, label, message)` calls. -/
abbrev RegCall := String × String × String

/-- `LogActionRegistry` state (`wagtail/admin/log_action_registry.py`):
`actions` and `messages` are dicts (insertion-ordered, overwriting), while
`choices` is a plain list that `register_action` only ever appends to. -/
structure LogActionRegistry where
  has_scanned_for_actions : Bool
  actions : List (String × String × String)
  messages : List (String × String)
  choices : List (String × String)
deriving DecidableEq, Repr

/-- `LogActionRegistry.__init__`. -/
def initRegistry : LogActionRegistry :=
  { has_scanned_for_actions := false, actions := [], messages := [], choices := [] }

/-- `LogActionRegistry.register_action` (lines 34-37): overwrite the
`actions` and `messages` dict entries, append to `choices`. -/
def register_action (r : LogActionRegistry) (action label message : String) :
    LogActionRegistry :=
  { r with
    actions := assocSet action (label, message) r.actions
    messages := assocSet action message r.messages
    choices := r.choices ++ [(action, label)] }

/-- Run one hook callback: replay its `register_action` calls in order. -/
def runHook (r : LogActionRegistry) (calls : List RegCall) : LogActionRegistry :=
  calls.foldl (fun acc c => register_action acc c.1 c.2.1 c.2.2) r

/-- `LogActionRegistry.scan_for_actions` (lines 22-29): on the first call,
invoke every `register_log_actions` hook with the registry, then set the
scanned flag; later calls are no-ops. -/
def scan_for_actions (hooks : List (List RegCall)) (r : LogActionRegistry) :
    LogActionRegistry :=
  if r.has_scanned_for_actions then r
  else { hooks.foldl runHook r with has_scanned_for_actions := true }

/-- `LogActionRegistry.get_choices` (lines 39-41). -/
def get_choices (hooks : List (List RegCall)) (r : LogActionRegistry) :
    List (String × String) :=
  (scan_for_actions hooks r).choices

/-- A `Page` row as the backfill command sees it: id, the currently
designated live revision, and the `specific` instance handed to
`log_action`. -/
structure Page where
  id : Nat
  live_revision_id : Option Nat
  specific : Instance
deriving DecidableEq, Repr

/-- A `PageRevision` row; `content` is the parsed `content_json` snapshot. -/
structure Revision where
  id : Nat
  page_id : Nat
  created_at : Nat
  user_id : Option Nat
  content : Dict
deriving DecidableEq, Repr

/-- The database state the command reads and writes. -/
structure DB where
  pages : List Page
  revisions : List Revision
  entries : List LogEntry
deriving DecidableEq, Repr

/-- The `order_by('page_id', 'created_at')` comparison. -/
def revLE (a b : Revision) : Bool :=
  decide (a.page_id < b.page_id) ||
    (decide (a.page_id = b.page_id) && decide (a.created_at ≤ b.created_at))

/-- Stable insertion for `sortRevs`. -/
def insertRev (r : Revision) : List Revision → List Revision
  | [] => [r]
  | x :: xs => if revLE r x then r :: x :: xs else x :: insertRev r xs

/-- Deterministic model of the queryset ordering
`order_by('page_id', 'created_at')`. -/
def sortRevs : List Revision → List Revision
  | [] => []
  | x :: xs => insertRev x (sortRevs xs)

/-- The volatile fields the command deletes from every snapshot before
diffing (command line 24), in source order. -/
def ignoredFields : List String :=
  ["live", "has_unpublished_changes", "url_path", "path", "depth", "numchild",
   "latest_revision_created_at", "live_revision", "draft_title", "owner", "locked"]

/-- Python `del d[k]`: `KeyError` when the key is absent. -/
def delKey (d : Dict) (k : String) : Except PyErr Dict :=
  match dictLookup k d with
  | some _ => .ok (dictRemove k d)
  | none => .error (.keyError k)

/-- The command's stripping loop: delete each ignored field in turn,
propagating the first `KeyError`. -/
def delKeys (ks : List String) (d : Dict) : Except PyErr Dict :=
  match ks with
  | [] => .ok d
  | k :: rest =>
    match delKey d k with
    | .ok d' => delKeys rest d'
    | .error e => .error e

/-- Membership test on a list of revision ids (Python set membership). -/
def memN (x : Nat) : List Nat → Bool
  | [] => false
  | y :: ys => if y = x then true else memN x ys

/-- Python `set.add` on revision ids. -/
def insN (x : Nat) (l : List Nat) : List Nat :=
  if memN x l then l else x :: l

/-- Membership test on a list of snapshot values (Python set membership for
`revisions_that_were_once_live`, which holds raw JSON values). -/
def memJ (x : JVal) : List JVal → Bool
  | [] => false
  | y :: ys => if y = x then true else memJ x ys

/-- Python `set.add` on snapshot values. -/
def insJ (x : JVal) (l : List JVal) : List JVal :=
  if memJ x l then l else x :: l

/-- `LogEntry.objects.filter(revision=revision).exists()`. -/
def hasEntryFor : List LogEntry → Nat → Bool
  | [], _ => false
  | e :: es, rid => if e.revision_id = some rid then true else hasEntryFor es rid

/-- `pages.get(id=page_id)` via the `select_related('page')` join. -/
def pageById (pages : List Page) (pid : Nat) : Option Page :=
  pages.find? (fun p => p.id == pid)

/-- The state the command threads through its revision loop, named after the
source variables. -/
structure BackfillState where
  current_page_id : Option Nat
  previous_revision_content : Option Dict
  revisions_that_were_once_live : List JVal
  revision_that_got_log_entries : List Nat
  entries : List LogEntry
deriving DecidableEq, Repr

/-- One iteration of the command's revision loop
(`convert_revisions_to_log_entries.py` lines 14-45): detect a new page,
collect a truthy `live_revision` pointer, strip the ignored fields
(`KeyError` on a missing one), skip revisions that already have a log entry,
record the revision as processed, diff against the previous stripped
snapshot, and create a log entry when the content changed or the revision is
the page's current live revision. -/
def processRevision (pages : List Page) (now : Nat) (st : BackfillState)
    (r : Revision) : Except PyErr BackfillState :=
  let is_new_page := !(st.current_page_id == some r.page_id)
  let previous := if is_new_page then none else st.previous_revision_content
  let onceLive := match dictLookup "live_revision" r.content with
    | some v => if jtruthy v then insJ v st.revisions_that_were_once_live
                else st.revisions_that_were_once_live
    | none => st.revisions_that_were_once_live
  match delKeys ignoredFields r.content with
  | .error e => .error e
  | .ok content =>
    if hasEntryFor st.entries r.id then
      .ok { current_page_id := some r.page_id
            previous_revision_content := some content
            revisions_that_were_once_live := onceLive
            revision_that_got_log_entries := st.revision_that_got_log_entries
            entries := st.entries }
    else
      let got := insN r.id st.revision_that_got_log_entries
      let content_changed := !is_new_page &&
        (match previous with
         | none => true
         | some p => !dictEqB p content)
      match pageById pages r.page_id with
      | none => .error .pageDoesNotExist
      | some page =>
        let published := page.live_revision_id == some r.id
        if content_changed || published then
          match log_action page.specific
              (if published then "wagtail.publish" else "wagtail.edit")
              { user := r.user_id, title := none, data := some (.pstr ""),
                timestamp := some r.created_at, revision := some r.id,
                created := is_new_page, published := page.live_revision_id == some r.id,
                unpublished := false, content_changed := content_changed,
                deleted := false } now with
          | .error e => .error e
          | .ok entry =>
            .ok { current_page_id := some r.page_id
                  previous_revision_content := some content
                  revisions_that_were_once_live := onceLive
                  revision_that_got_log_entries := got
                  entries := st.entries ++ [entry] }
        else
          .ok { current_page_id := some r.page_id
                previous_revision_content := some content
                revisions_that_were_once_live := onceLive
                revision_that_got_log_entries := got
                entries := st.entries }

/-- The whole revision loop. -/
def runRevs (pages : List Page) (now : Nat) (st : BackfillState) :
    List Revision → Except PyErr BackfillState
  | [] => .ok st
  | r :: rs =>
    match processRevision pages now st r with
    | .error e => .error e
    | .ok st' => runRevs pages now st' rs

/-- The corrective bulk update (command lines 47-49): flip `published` to
true on entries whose revision id lies in the intersection of the two
collected sets and whose `published` flag is still false. -/
def correctiveFlip (onceLive : List JVal) (got : List Nat) (e : LogEntry) :
    LogEntry :=
  match e.revision_id with
  | some rid =>
    if memJ (JVal.jn (Int.ofNat rid)) onceLive && memN rid got && !e.published then
      { e with published := true }
    else e
  | none => e

/-- `Command.handle`: the ordered revision pass followed by the corrective
bulk update.  A Python exception anywhere aborts the command. -/
def handleDB (db : DB) (now : Nat) : Except PyErr DB :=
  match runRevs db.pages now
      { current_page_id := none, previous_revision_content := none,
        revisions_that_were_once_live := [], revision_that_got_log_entries := [],
        entries := db.entries } (sortRevs db.revisions) with
  | .error e => .error e
  | .ok st =>
    .ok { db with
          entries := st.entries.map
            (correctiveFlip st.revisions_that_were_once_live
              st.revision_that_got_log_entries) }

/-- The page instance used by the concrete scenarios below. -/
def instHome : Instance :=
  { pk := 1, content_type := 7, get_admin_display_title := some "Home", strRep := "Home" }

/-- A snapshot containing every ignored field plus one real field `title`;
`liveRev` is the snapshot's `live_revision` pointer. -/
def baseContent (title : String) (liveRev : JVal) : Dict :=
  [("live", .jb true), ("has_unpublished_changes", .jb false),
   ("url_path", .js "/home/"), ("path", .js "0001"), ("depth", .jn 1),
   ("numchild", .jn 0), ("latest_revision_created_at", .js "2020-01-01"),
   ("live_revision", liveRev), ("draft_title", .js "d"), ("owner", .null),
   ("locked", .jb false), ("title", .js title)]

/-- The claim C1 scenario: page 1 with revisions R1 (first, was live), R2
(edited, content differs), R3 (published, content equal to R2); the page's
current live revision is R3, and R2/R3 snapshots point `live_revision` back
at R1. -/
def c1db : DB :=
  { pages := [{ id := 1, live_revision_id := some 3, specific := instHome }]
    revisions :=
      [{ id := 1, page_id := 1, created_at := 10, user_id := some 1,
         content := baseContent "v1" JVal.null },
       { id := 2, page_id := 1, created_at := 20, user_id := some 1,
         content := baseContent "v2" (JVal.jn 1) },
       { id := 3, page_id := 1, created_at := 30, user_id := some 1,
         content := baseContent "v2" (JVal.jn 1) }]
    entries := [] }

/-- The claim C3 scenario: revision 12 (X) would receive an entry with
`published=false` (its content differs from revision 11's and it is not the
page's live revision), and revision 13's snapshot points `live_revision` at
12. -/
def c3db : DB :=
  { pages := [{ id := 2, live_revision_id := some 13, specific := instHome }]
    revisions :=
      [{ id := 11, page_id := 2, created_at := 10, user_id := some 1,
         content := baseContent "a1" JVal.null },
       { id := 12, page_id := 2, created_at := 20, user_id := some 1,
         content := baseContent "a2" JVal.null },
       { id := 13, page_id := 2, created_at := 30, user_id := some 1,
         content := baseContent "a2" (JVal.jn 12) }]
    entries := [] }

/-- A pre-existing log entry referencing revision 21. -/
def wEntry : LogEntry :=
  { content_type := some 7, object_id := "1", object_title := "Home",
    action := "wagtail.edit", data_json := "", timestamp := 5,
    user_id := none, revision_id := some 21, created := false,
    published := false, unpublished := false, content_changed := true,
    deleted := false }

/-- One revision whose log entry already exists. -/
def rW : Revision :=
  { id := 21, page_id := 3, created_at := 10, user_id := none,
    content := baseContent "w" JVal.null }

/-- Database on which the command completes successfully: the only revision
already has a log entry and is skipped. -/
def dbW : DB :=
  { pages := [{ id := 3, live_revision_id := none, specific := instHome }]
    revisions := [rW]
    entries := [wEntry] }

/-- A pre-existing entry (published=false) referencing revision 10. -/
def w9entry : LogEntry :=
  { content_type := some 7, object_id := "5", object_title := "Home",
    action := "wagtail.publish", data_json := "", timestamp := 3,
    user_id := none, revision_id := some 10, created := false,
    published := false, unpublished := false, content_changed := false,
    deleted := false }

/-- Database where revision 10 already has an entry and revision 11's
snapshot records `live_revision = 10`: the corrective pass must not touch
the pre-existing entry. -/
def dbW2 : DB :=
  { pages := [{ id := 5, live_revision_id := some 99, specific := instHome }]
    revisions :=
      [{ id := 10, page_id := 5, created_at := 10, user_id := none,
         content := baseContent "x" JVal.null },
       { id := 11, page_id := 5, created_at := 20, user_id := none,
         content := baseContent "x" (JVal.jn 10) }]
    entries := [w9entry] }

/-- `rW.content` with the ignored fields stripped. -/
def strippedW : Dict := [("title", JVal.js "w")]

/-- Kwargs with every field at its Python-default (no keyword supplied). -/
def kwNone : LogActionKwargs :=
  { user := none, title := none, data := none, timestamp := none,
    revision := none, created := false, published := false,
    unpublished := false, content_changed := false, deleted := false }

/-- Kwargs passing `data={}` and nothing else. -/
def kwEmptyDict : LogActionKwargs :=
  { kwNone with data := some (.pdict []) }

/-- An instance without the `get_admin_display_title` attribute. -/
def instPlain : Instance :=
  { pk := 2, content_type := 8, get_admin_display_title := none, strRep := "plain" }

/-- An instance whose `get_admin_display_title()` returns `"My Page"`. -/
def instMyPage : Instance :=
  { pk := 3, content_type := 8, get_admin_display_title := some "My Page",
    strRep := "ignored" }

/-- An entry with no actor. -/
def entrySystem : LogEntry :=
  { wEntry with revision_id := none }

/-- An entry whose actor id 7 no longer resolves. -/
def entryDeleted : LogEntry :=
  { wEntry with user_id := some 7, revision_id := none }


deriving instance DecidableEq for Except

/-- Loop invariant: the entry table is untouched, and every revision id in
`revision_that_got_log_entries` had no entry referencing it. -/
def EntriesInv (base : List LogEntry) (st : BackfillState) : Prop :=
  st.entries = base ∧
    ∀ rid, memN rid st.revision_that_got_log_entries = true →
      hasEntryFor base rid = false


/-- Overwriting dict assignment makes the key map to the new value. -/
theorem assocGet_assocSet {α : Type} (k : String) (v : α) :
    ∀ l : List (String × α), assocGet k (assocSet k v l) = some v := by
  intro l
  induction l with
  | nil => simp [assocSet, assocGet]
  | cons p rest ih =>
    obtain ⟨k', v'⟩ := p
    by_cases h : k' = k
    · simp [assocSet, assocGet, h]
    · simp [assocSet, assocGet, h, ih]

/-- `register_action` always appends exactly one pair to `choices`. -/
theorem register_action_choices (r : LogActionRegistry) (a l m : String) :
    (register_action r a l m).choices = r.choices ++ [(a, l)] := rfl

/-- Replaying one callback's calls grows `choices` by the number of calls. -/
theorem runHook_choices_len :
    ∀ (calls : List RegCall) (r : LogActionRegistry),
      (runHook r calls).choices.length = r.choices.length + calls.length := by
  intro calls
  induction calls with
  | nil => intro r; rfl
  | cons c cs ih =>
    intro r
    have h1 : runHook r (c :: cs) = runHook (register_action r c.1 c.2.1 c.2.2) cs := rfl
    rw [h1, ih]
    simp [register_action]
    omega

/-- Folding all hooks grows `choices` by the total number of calls. -/
theorem foldl_runHook_len :
    ∀ (hooks : List (List RegCall)) (r : LogActionRegistry),
      ((hooks.foldl runHook r).choices).length
        = r.choices.length + (hooks.map List.length).sum := by
  intro hooks
  induction hooks with
  | nil => intro r; simp
  | cons h hs ih =>
    intro r
    rw [List.foldl_cons, ih, runHook_choices_len]
    simp
    omega

/-- After removing key `k`, looking up `k` yields nothing. -/
theorem dictLookup_dictRemove_self (k : String) :
    ∀ d : Dict, dictLookup k (dictRemove k d) = none := by
  intro d
  induction d with
  | nil => rfl
  | cons p rest ih =>
    obtain ⟨k', v⟩ := p
    by_cases h : k' = k
    · simp [dictRemove, h, ih]
    · simp [dictRemove, dictLookup, h, ih]

/-- Removing key `k` leaves other keys' lookups unchanged. -/
theorem dictLookup_dictRemove_ne (k k' : String) (hne : k' ≠ k) :
    ∀ d : Dict, dictLookup k' (dictRemove k d) = dictLookup k' d := by
  intro d
  induction d with
  | nil => rfl
  | cons p rest ih =>
    obtain ⟨k0, v⟩ := p
    by_cases h0 : k0 = k
    · subst h0
      simp [dictRemove, dictLookup, ih, Ne.symm hne]
    · by_cases h1 : k0 = k'
      · simp [dictRemove, dictLookup, h0, h1, hne]
      · simp [dictRemove, dictLookup, h0, h1, ih]

/-- Characterization of a successful `del d[k]`. -/
theorem delKey_ok (d : Dict) (k : String) (d' : Dict)
    (h : delKey d k = .ok d') :
    (dictLookup k d).isSome = true ∧ d' = dictRemove k d := by
  unfold delKey at h
  cases hl : dictLookup k d with
  | none => rw [hl] at h; simp at h
  | some v => rw [hl] at h; simp at h; exact ⟨rfl, h.symm⟩

/-- The stripping loop never re-adds a key. -/
theorem delKeys_preserves_none :
    ∀ (ks : List String) (d d' : Dict), delKeys ks d = .ok d' →
      ∀ k, dictLookup k d = none → dictLookup k d' = none := by
  intro ks
  induction ks with
  | nil =>
    intro d d' h k hk
    simp [delKeys] at h
    subst h
    exact hk
  | cons a as ih =>
    intro d d' h k hk
    simp only [delKeys] at h
    cases hda : delKey d a with
    | error e => rw [hda] at h; simp at h
    | ok d1 =>
      rw [hda] at h
      obtain ⟨-, hd1⟩ := delKey_ok d a d1 hda
      subst hd1
      by_cases hak : k = a
      · subst hak
        exact ih _ _ h k (dictLookup_dictRemove_self k d)
      · exact ih _ _ h k (by rw [dictLookup_dictRemove_ne a k hak]; exact hk)

/-- Every stripped key is absent from the result of a successful strip. -/
theorem delKeys_ok_lookup_none :
    ∀ (ks : List String) (d d' : Dict), delKeys ks d = .ok d' →
      ∀ k, k ∈ ks → dictLookup k d' = none := by
  intro ks
  induction ks with
  | nil => intro d d' h k hk; cases hk
  | cons a as ih =>
    intro d d' h k hk
    simp only [delKeys] at h
    cases hda : delKey d a with
    | error e => rw [hda] at h; simp at h
    | ok d1 =>
      rw [hda] at h
      obtain ⟨-, hd1⟩ := delKey_ok d a d1 hda
      subst hd1
      rcases List.mem_cons.mp hk with hka | hkas
      · subst hka
        exact delKeys_preserves_none as _ _ h k (dictLookup_dictRemove_self k d)
      · exact ih _ _ h k hkas

/-- A successful strip needs every listed key to be present. -/
theorem delKeys_present_of_ok :
    ∀ (ks : List String) (d d' : Dict), delKeys ks d = .ok d' →
      ∀ k, k ∈ ks → (dictLookup k d).isSome = true := by
  intro ks
  induction ks with
  | nil => intro d d' h k hk; cases hk
  | cons a as ih =>
    intro d d' h k hk
    simp only [delKeys] at h
    cases hda : delKey d a with
    | error e => rw [hda] at h; simp at h
    | ok d1 =>
      rw [hda] at h
      obtain ⟨hpres, hd1⟩ := delKey_ok d a d1 hda
      subst hd1
      rcases List.mem_cons.mp hk with hka | hkas
      · subst hka; exact hpres
      · have hk1 := ih _ _ h k hkas
        by_cases hak : k = a
        · subst hak
          rw [dictLookup_dictRemove_self k d] at hk1
          simp at hk1
        · rw [dictLookup_dictRemove_ne a k hak] at hk1
          exact hk1

/-- With distinct keys, presence of every key guarantees a successful strip. -/
theorem delKeys_ok_of_present :
    ∀ (ks : List String), ks.Nodup → ∀ d : Dict,
      (∀ k, k ∈ ks → (dictLookup k d).isSome = true) →
      ∃ d', delKeys ks d = .ok d' := by
  intro ks
  induction ks with
  | nil => intro _ d _; exact ⟨d, rfl⟩
  | cons a as ih =>
    intro hnd d hpres
    obtain ⟨hna, hndas⟩ := List.nodup_cons.mp hnd
    have ha := hpres a (List.mem_cons_self a as)
    cases hl : dictLookup a d with
    | none => rw [hl] at ha; simp at ha
    | some v =>
      have hrest : ∀ k, k ∈ as → (dictLookup k (dictRemove a d)).isSome = true := by
        intro k hk
        have hka : k ≠ a := fun h => hna (h ▸ hk)
        rw [dictLookup_dictRemove_ne a k hka]
        exact hpres k (List.mem_cons_of_mem a hk)
      obtain ⟨d', hd'⟩ := ih hndas (dictRemove a d) hrest
      refine ⟨d', ?_⟩
      simp only [delKeys, delKey, hl]
      exact hd'

/-- A failing strip fails with a `KeyError` naming one of the listed keys. -/
theorem delKeys_error_form :
    ∀ (ks : List String) (d : Dict) (e : PyErr), delKeys ks d = .error e →
      ∃ k, k ∈ ks ∧ e = PyErr.keyError k := by
  intro ks
  induction ks with
  | nil => intro d e h; simp [delKeys] at h
  | cons a as ih =>
    intro d e h
    simp only [delKeys] at h
    cases hda : delKey d a with
    | error e0 =>
      rw [hda] at h
      simp at h
      unfold delKey at hda
      cases hl : dictLookup a d with
      | none =>
        rw [hl] at hda
        simp at hda
        exact ⟨a, List.mem_cons_self a as, (hda.trans h).symm⟩
      | some v => rw [hl] at hda; simp at hda
    | ok d1 =>
      rw [hda] at h
      obtain ⟨k, hk, he⟩ := ih d1 e h
      exact ⟨k, List.mem_cons_of_mem a hk, he⟩

/-- A list map that fixes every element is the identity. -/
theorem map_id_of_fix {α : Type} (f : α → α) :
    ∀ l : List α, (∀ a, a ∈ l → f a = a) → l.map f = l := by
  intro l
  induction l with
  | nil => intro _; rfl
  | cons a as ih =>
    intro h
    rw [List.map_cons, h a (List.mem_cons_self a as),
      ih (fun x hx => h x (List.mem_cons_of_mem a hx))]

/-- Set insertion only ever adds the inserted element. -/
theorem memN_insN (x y : Nat) (l : List Nat)
    (h : memN x (insN y l) = true) : x = y ∨ memN x l = true := by
  unfold insN at h
  by_cases hm : memN y l = true
  · rw [if_pos hm] at h
    right; exact h
  · rw [if_neg hm] at h
    unfold memN at h
    by_cases hyx : y = x
    · left; exact hyx.symm
    · rw [if_neg hyx] at h
      right; exact h

/-- An entry referencing `rid` makes the existence check true. -/
theorem hasEntryFor_of_mem :
    ∀ (l : List LogEntry) (e : LogEntry) (rid : Nat), e ∈ l →
      e.revision_id = some rid → hasEntryFor l rid = true := by
  intro l
  induction l with
  | nil => intro e rid he _; cases he
  | cons f fs ih =>
    intro e rid he hrev
    rcases List.mem_cons.mp he with hef | hefs
    · subst hef
      simp [hasEntryFor, hrev]
    · unfold hasEntryFor
      by_cases hf : f.revision_id = some rid
      · rw [if_pos hf]
      · rw [if_neg hf]
        exact ih e rid hefs hrev

/-- One loop iteration preserves the invariant whenever it does not raise:
on the skip branch nothing changes, and on the create branch `log_action`
raises the duplicate-`timestamp` `TypeError`, so a surviving iteration never
created an entry. -/
theorem processRevision_inv (pages : List Page) (now : Nat)
    (base : List LogEntry) (st : BackfillState) (r : Revision)
    (st' : BackfillState) (hInv : EntriesInv base st)
    (h : processRevision pages now st r = .ok st') : EntriesInv base st' := by
  obtain ⟨hE, hG⟩ := hInv
  simp only [processRevision] at h
  split at h
  · simp at h
  · split at h
    next hex =>
      injection h with h2
      subst h2
      exact ⟨hE, hG⟩
    next hex =>
      split at h
      · simp at h
      next page hpg =>
        split at h
        · split at h
          · simp [log_action] at h
          · injection h with h2
            subst h2
            refine ⟨hE, ?_⟩
            intro rid hr
            rcases memN_insN rid r.id st.revision_that_got_log_entries hr with hid | hmem
            · subst hid
              rw [hE] at hex
              exact Bool.eq_false_iff.mpr hex
            · exact hG rid hmem
        · split at h
          · simp [log_action] at h
          · injection h with h2
            subst h2
            refine ⟨hE, ?_⟩
            intro rid hr
            rcases memN_insN rid r.id st.revision_that_got_log_entries hr with hid | hmem
            · subst hid
              rw [hE] at hex
              exact Bool.eq_false_iff.mpr hex
            · exact hG rid hmem

/-- The whole loop preserves the invariant when it completes. -/
theorem runRevs_inv :
    ∀ (revs : List Revision) (pages : List Page) (now : Nat)
      (base : List LogEntry) (st st' : BackfillState), EntriesInv base st →
      runRevs pages now st revs = .ok st' → EntriesInv base st' := by
  intro revs
  induction revs with
  | nil =>
    intro pages now base st st' hInv h
    simp [runRevs] at h
    subst h
    exact hInv
  | cons r rs ih =>
    intro pages now base st st' hInv h
    simp only [runRevs] at h
    split at h
    · simp at h
    next st1 hp =>
      exact ih pages now base st1 st'
        (processRevision_inv pages now base st r st1 hInv hp) h

/-- Every revision surviving the loop had a successful strip. -/
theorem runRevs_strip_ok :
    ∀ (revs : List Revision) (pages : List Page) (now : Nat)
      (st st' : BackfillState), runRevs pages now st revs = .ok st' →
      ∀ r, r ∈ revs → ∃ d, delKeys ignoredFields r.content = .ok d := by
  intro revs
  induction revs with
  | nil => intro pages now st st' _ r hr; cases hr
  | cons r0 rs ih =>
    intro pages now st st' h r hr
    simp only [runRevs] at h
    split at h
    · simp at h
    next st1 hp =>
      rcases List.mem_cons.mp hr with hr0 | hrs
      · subst hr0
        simp only [processRevision] at hp
        split at hp
        · simp at hp
        next content heq => exact ⟨content, heq⟩
      · exact ih pages now st1 st' h r hrs

/-- Insertion adds exactly the inserted element. -/
theorem mem_insertRev (r x : Revision) :
    ∀ l : List Revision, x ∈ insertRev r l ↔ (x = r ∨ x ∈ l) := by
  intro l
  induction l with
  | nil => simp [insertRev]
  | cons a as ih =>
    unfold insertRev
    by_cases h : revLE r a = true
    · rw [if_pos h]
      simp [List.mem_cons]
    · rw [if_neg h]
      simp [List.mem_cons, ih]
      tauto

/-- The ordering pass permutes membership only. -/
theorem mem_sortRevs (x : Revision) :
    ∀ l : List Revision, x ∈ sortRevs l ↔ x ∈ l := by
  intro l
  induction l with
  | nil => simp [sortRevs]
  | cons a as ih => simp [sortRevs, mem_insertRev, ih, List.mem_cons]

/-- When the command completes without raising, the database is unchanged:
entry creation always raises the duplicate-`timestamp` `TypeError`, so a
completing run created nothing, and the corrective pass only targets
revision ids that had no entry, which therefore match no stored row. -/
theorem handle_ok (db : DB) (now : Nat) (db' : DB)
    (h : handleDB db now = .ok db') : db' = db := by
  simp only [handleDB] at h
  split at h
  · simp at h
  next st hrun =>
    have hInv : EntriesInv db.entries st := by
      refine runRevs_inv (sortRevs db.revisions) db.pages now db.entries _ st
        ⟨rfl, fun rid hr => by simp [memN] at hr⟩ hrun
    injection h with h2
    have hmap : st.entries.map
        (correctiveFlip st.revisions_that_were_once_live
          st.revision_that_got_log_entries) = db.entries := by
      rw [hInv.1]
      apply map_id_of_fix
      intro e he
      unfold correctiveFlip
      cases hrev : e.revision_id with
      | none => rfl
      | some rid =>
        have hmn : memN rid st.revision_that_got_log_entries = false := by
          cases hb : memN rid st.revision_that_got_log_entries with
          | false => rfl
          | true =>
            have hfalse := hInv.2 rid hb
            rw [hasEntryFor_of_mem db.entries e rid he hrev] at hfalse
            cases hfalse
        simp [hmn]
    rw [hmap] at h2
    exact h2.symm

/-- C1: on the scenario of claim C1 (page with revisions R1 live-then, R2
edited, R3 published equal to R2) the backfill command does not create the
three expected log entries: it raises `TypeError` (the command puts
`timestamp` into `log_action`'s kwargs, which `log_action` also passes
explicitly to `create`) at the first revision needing an entry, and aborts
with no entry written. -/
theorem backfill_three_revision_scenario_raises :
    handleDB c1db 0 = Except.error PyErr.duplicateTimestampKwarg := by
  decide

/-- C3: on a database where a later snapshot's `live_revision` points at
revision X = 12 and X's entry would be created with `published=false`, the
command raises the duplicate-`timestamp` `TypeError` at X's `log_action`
call, so no entry exists and the corrective pass is never reached. -/
theorem backfill_corrective_scenario_raises :
    handleDB c3db 0 = Except.error PyErr.duplicateTimestampKwarg := by
  decide

/-- C4: re-running the backfill command immediately after a complete
successful run creates zero additional log entries (the re-run yields the
same entry table; revisions that already have an entry are skipped by the
existence check). -/
theorem backfill_rerun_creates_no_entries (db : DB) (now : Nat) (db' : DB)
    (h : handleDB db now = Except.ok db') :
    ∃ db'', handleDB db' now = Except.ok db'' ∧
      db''.entries.length = db'.entries.length := by
  have hid := handle_ok db now db' h
  subst hid
  exact ⟨db', h, rfl⟩

/-- Witness for C4: a concrete database whose only revision already has a
log entry; the run succeeds and the re-run adds no entries. -/
theorem backfill_rerun_creates_no_entries_witness :
    ∃ db'', handleDB dbW 0 = Except.ok db'' ∧
      db''.entries.length = dbW.entries.length :=
  backfill_rerun_creates_no_entries dbW 0 dbW (by decide)

/-- C9: a run of the backfill command that completes leaves every
pre-existing log entry unchanged in all fields: the corrective bulk update
is restricted to revision ids collected only when no entry referenced them,
so stored rows never match it. -/
theorem backfill_preserves_existing_entries (db : DB) (now : Nat) (db' : DB)
    (h : handleDB db now = Except.ok db') : db'.entries = db.entries := by
  rw [handle_ok db now db' h]

/-- Witness for C9: a database with a `published=false` entry for revision
10 while revision 11's snapshot records `live_revision = 10`; the run
succeeds and the entry keeps all its fields. -/
theorem backfill_preserves_existing_entries_witness :
    ∃ db', handleDB dbW2 0 = Except.ok db' ∧ db'.entries = dbW2.entries :=
  ⟨dbW2, by decide, backfill_preserves_existing_entries dbW2 0 dbW2 (by decide)⟩

/-- C10 counterexample: the command's ignored-field list has eleven entries,
not the claimed ten. -/
theorem ignored_fields_count_is_eleven :
    ignoredFields.length = 11 ∧ ignoredFields.length ≠ 10 := by decide

/-- C10 (amended to eleven keys): a successful strip removes every listed
key; the strip succeeds exactly when all listed keys are present; a missing
key makes the strip fail with a `KeyError` instead of being skipped; and a
completing command run implies every revision's snapshot contained all the
listed keys. -/
theorem strip_deletes_all_listed_keys :
    (∀ d d' : Dict, delKeys ignoredFields d = Except.ok d' →
      ∀ k, k ∈ ignoredFields → dictLookup k d' = none) ∧
    (∀ d : Dict, (∃ d', delKeys ignoredFields d = Except.ok d') ↔
      (∀ k, k ∈ ignoredFields → (dictLookup k d).isSome = true)) ∧
    (∀ d : Dict, (∃ k, k ∈ ignoredFields ∧ dictLookup k d = none) →
      ∃ k', delKeys ignoredFields d = Except.error (PyErr.keyError k')) ∧
    (∀ (db : DB) (now : Nat) (db' : DB), handleDB db now = Except.ok db' →
      ∀ r, r ∈ db.revisions → ∀ k, k ∈ ignoredFields →
        (dictLookup k r.content).isSome = true) := by
  have hnd : ignoredFields.Nodup := by decide
  refine ⟨?_, ?_, ?_, ?_⟩
  · intro d d' h k hk
    exact delKeys_ok_lookup_none ignoredFields d d' h k hk
  · intro d
    constructor
    · rintro ⟨d', hd'⟩ k hk
      exact delKeys_present_of_ok ignoredFields d d' hd' k hk
    · intro hall
      exact delKeys_ok_of_present ignoredFields hnd d hall
  · intro d hmiss
    obtain ⟨k, hk, hnone⟩ := hmiss
    cases hdk : delKeys ignoredFields d with
    | ok d' =>
      have hpres := delKeys_present_of_ok ignoredFields d d' hdk k hk
      rw [hnone] at hpres
      cases hpres
    | error e =>
      obtain ⟨k', _, he⟩ := delKeys_error_form ignoredFields d e hdk
      exact ⟨k', by rw [he]⟩
  · intro db now db' h r hr k hk
    simp only [handleDB] at h
    split at h
    · simp at h
    next st hrun =>
      obtain ⟨d, hd⟩ := runRevs_strip_ok (sortRevs db.revisions) db.pages now _ st
        hrun r ((mem_sortRevs r db.revisions).mpr hr)
      exact delKeys_present_of_ok ignoredFields r.content d hd k hk

/-- Witness for C10: concrete strip of `rW`'s snapshot removes `live`, and
the successful run on `dbW` certifies `live` was present in the snapshot. -/
theorem strip_deletes_all_listed_keys_witness :
    dictLookup "live" strippedW = none ∧
    (dictLookup "live" rW.content).isSome = true :=
  ⟨strip_deletes_all_listed_keys.1 rW.content strippedW (by decide) "live" (by decide),
   strip_deletes_all_listed_keys.2.2.2 dbW 0 dbW (by decide) rW (by decide) "live" (by decide)⟩

/-- C5: from a fresh registry, `get_choices` has exactly one pair per
`register_action` call made by the hook callbacks (duplicate action keys
included), while a duplicate registration overwrites the `actions` and
`messages` mappings yet still appends a stale pair to `choices`. -/
theorem registry_choices_length_and_overwrite :
    (∀ hooks : List (List RegCall),
      (get_choices hooks initRegistry).length = (hooks.map List.length).sum) ∧
    (∀ (r : LogActionRegistry) (a l m : String),
      (register_action r a l m).choices = r.choices ++ [(a, l)] ∧
      assocGet a (register_action r a l m).actions = some (l, m) ∧
      assocGet a (register_action r a l m).messages = some m) := by
  constructor
  · intro hooks
    show ((hooks.foldl runHook initRegistry).choices).length = _
    rw [foldl_runHook_len]
    simp [initRegistry]
  · intro r a l m
    exact ⟨rfl, assocGet_assocSet a (l, m) r.actions, assocGet_assocSet a m r.messages⟩

/-- C6: `get_for_model` raises `TypeError` (from `issubclass`) on a
non-class argument instead of returning the empty queryset its own comment
promises, while a class argument that is not a model subclass does yield
the empty queryset without an exception. -/
theorem get_for_model_invalid_argument :
    (∀ entries : List LogEntry,
      get_for_model entries ModelArg.nonClass
        = Except.error PyErr.issubclassTypeError) ∧
    (∀ (entries : List LogEntry) (ct : Nat),
      get_for_model entries (ModelArg.cls false ct) = Except.ok []) :=
  ⟨fun _ => rfl, fun _ _ => rfl⟩

/-- C7: the `username` accessor is total; with no actor set it returns the
"system" marker, and with an actor id that no longer resolves it returns the
placeholder containing the literal stored actor id. -/
theorem username_never_raises_and_marks :
    ∀ (users : List (Nat × String)) (e : LogEntry),
      (e.user_id = none → LogEntry.username users e = "system") ∧
      (∀ uid, e.user_id = some uid → uid ≠ 0 → assocGet uid users = none →
        LogEntry.username users e = "user " ++ toString uid ++ " (deleted)") := by
  intro users e
  constructor
  · intro h
    simp [LogEntry.username, h]
  · intro uid h hz hnone
    simp [LogEntry.username, h, hz, hnone]

/-- Witness for C7: entry without actor reads "system"; entry whose actor 7
was deleted reads the deleted-user placeholder naming id 7. -/
theorem username_never_raises_and_marks_witness :
    LogEntry.username [] entrySystem = "system" ∧
    LogEntry.username [] entryDeleted = "user " ++ toString 7 ++ " (deleted)" :=
  ⟨(username_never_raises_and_marks [] entrySystem).1 rfl,
   (username_never_raises_and_marks [] entryDeleted).2 7 rfl (by decide) rfl⟩

/-- C8: `log_action` without an explicit title takes the instance's
`get_admin_display_title()` when the attribute exists, else `str(instance)`,
as the created entry's `object_title`. -/
theorem log_action_title_derivation :
    ∀ (inst : Instance) (a : String) (kw : LogActionKwargs) (now : Nat),
      kw.title = none → kw.timestamp = none →
      ((∀ t, inst.get_admin_display_title = some t →
          ∃ e, log_action inst a kw now = Except.ok e ∧ e.object_title = t) ∧
        (inst.get_admin_display_title = none →
          ∃ e, log_action inst a kw now = Except.ok e ∧
            e.object_title = inst.strRep)) := by
  intro inst a kw now ht hts
  have hok : log_action inst a kw now = Except.ok (logEntryOf inst a kw now) := by
    unfold log_action
    rw [hts]
  have htitle : (logEntryOf inst a kw now).object_title = fallbackTitle inst := by
    simp [logEntryOf, ht]
  constructor
  · intro t hgadt
    exact ⟨logEntryOf inst a kw now, hok,
      by rw [htitle]; simp [fallbackTitle, hgadt]⟩
  · intro hgadt
    exact ⟨logEntryOf inst a kw now, hok,
      by rw [htitle]; simp [fallbackTitle, hgadt]⟩

/-- Witness for C8: an instance whose accessor returns "My Page" yields
`object_title = "My Page"`; one without the accessor yields its `str()`. -/
theorem log_action_title_derivation_witness :
    (∃ e, log_action instMyPage "wagtail.edit" kwNone 0 = Except.ok e ∧
      e.object_title = "My Page") ∧
    (∃ e, log_action instPlain "wagtail.edit" kwNone 0 = Except.ok e ∧
      e.object_title = "plain") :=
  ⟨(log_action_title_derivation instMyPage "wagtail.edit" kwNone 0 rfl rfl).1
      "My Page" rfl,
   (log_action_title_derivation instPlain "wagtail.edit" kwNone 0 rfl rfl).2 rfl⟩

/-- C2 counterexample: `log_action` with `data={}` stores the two-character
brace text in `data_json`, not the empty-string sentinel the claim
asserts. -/
theorem log_action_empty_dict_stores_brace_text :
    Except.map LogEntry.data_json (log_action instPlain "wagtail.note" kwEmptyDict 0)
      = Except.ok "\x7b\x7d" ∧
    ¬ Except.map LogEntry.data_json (log_action instPlain "wagtail.note" kwEmptyDict 0)
      = Except.ok "" := by
  decide

/-- C2 (amended): `data={}` is stored as the brace text and reads back as an
empty mapping through the `data` accessor; the default payload `''` is
stored as the JSON string text `""` (not the empty-string sentinel) and
reads back as the empty Python string. -/
theorem log_action_data_serialization :
    ∀ (inst : Instance) (a : String) (kw kw' : LogActionKwargs) (now : Nat),
      kw.timestamp = none → kw.data = some (PyData.pdict []) →
      kw'.timestamp = none → kw'.data = none →
      ∃ e e', log_action inst a kw now = Except.ok e ∧
        e.data_json = "\x7b\x7d" ∧
        LogEntry.data e = Except.ok (PyData.pdict []) ∧
        log_action inst a kw' now = Except.ok e' ∧
        e'.data_json = "\"\"" ∧
        LogEntry.data e' = Except.ok (PyData.pstr "") := by
  intro inst a kw kw' now hts hd hts' hd'
  have hok : log_action inst a kw now = Except.ok (logEntryOf inst a kw now) := by
    unfold log_action
    rw [hts]
  have hok' : log_action inst a kw' now = Except.ok (logEntryOf inst a kw' now) := by
    unfold log_action
    rw [hts']
  have hdj : (logEntryOf inst a kw now).data_json = "\x7b\x7d" := by
    simp [logEntryOf, hd]
    decide
  have hdj' : (logEntryOf inst a kw' now).data_json = "\"\"" := by
    simp [logEntryOf, hd']
    decide
  have hde : LogEntry.data (logEntryOf inst a kw now) = Except.ok (PyData.pdict []) := by
    unfold LogEntry.data
    rw [hdj]
    decide
  have hde' : LogEntry.data (logEntryOf inst a kw' now) = Except.ok (PyData.pstr "") := by
    unfold LogEntry.data
    rw [hdj']
    decide
  exact ⟨logEntryOf inst a kw now, logEntryOf inst a kw' now,
    hok, hdj, hde, hok', hdj', hde'⟩

/-- Witness for C2: the concrete `data={}` and default-data calls. -/
theorem log_action_data_serialization_witness :
    ∃ e e', log_action instPlain "wagtail.note" kwEmptyDict 0 = Except.ok e ∧
      e.data_json = "\x7b\x7d" ∧
      LogEntry.data e = Except.ok (PyData.pdict []) ∧
      log_action instPlain "wagtail.note" kwNone 0 = Except.ok e' ∧
      e'.data_json = "\"\"" ∧
      LogEntry.data e' = Except.ok (PyData.pstr "") :=
  log_action_data_serialization instPlain "wagtail.note" kwEmptyDict kwNone 0
    rfl rfl rfl rfl
